import Mathlib

/-!
A shallow embedding of the `httpclient` Go package (files `client.go` and
`interceptors.go`) and proofs about its interception pipeline.

Modelling conventions:
* `*http.Request` / `*http.Response` / the `http.Client` are type parameters
  (`Req`, `Res`, `HC`) for the generic pipeline machinery, and concrete
  structures (`Request`, `Response`) for the built-in interceptor library.
* A Go interceptor `func(T) (T, error)` becomes `T → T × Option Err`.
* A Go option value is characterised by the method sets its dynamic type
  implements: whether it is the concrete `HTTPClientOption` function type,
  whether it implements `RequestInterceptor`, and whether it implements
  `ResponseInterceptor`.  Go type assertions (`opt.(RequestInterceptor)`)
  consult exactly this information.
* `http.Client.Do` (the transport) is an oracle `Req → TransportResult`.
  Per the `net/http` contract a nil error comes with a non-nil response,
  which the `ok` constructor encodes; a non-nil error may come with or
  without a response (`fail`).
* `Do`'s result is instrumented with `rawCloses`: how many times `Do`
  itself ran `Close` on the transport's raw response body (the
  `defer res.Body.Close()` on line 110 of client.go).  The deferred call
  captures `res.Body` at the point the `defer` statement executes, i.e. the
  raw transport body, so one run of the defer is one close of the raw body.
-/

namespace Httpclient

/-- `RequestInterceptor.InterceptRequest : func(*http.Request) (*http.Request, error)`. -/
abbrev ReqInterceptor (Req Err : Type) : Type := Req → Req × Option Err

/-- `ResponseInterceptor.InterceptResponse : func(*http.Response) (*http.Response, error)`. -/
abbrev ResInterceptor (Res Err : Type) : Type := Res → Res × Option Err

/-- An option value, characterised by the capabilities of its dynamic Go type:
`httpClientOption` is `some f` when the value is the concrete function type
`HTTPClientOption`, `reqInterceptor` is `some i` when the dynamic type
implements `RequestInterceptor`, and `resInterceptor` is `some i` when it
implements `ResponseInterceptor`.  (`RequestOption` and `ClientOption` are
marker interfaces; membership is not needed for the modelled behaviour.) -/
structure GoOption (HC Req Res Err : Type) : Type where
  httpClientOption : Option (HC → HC)
  reqInterceptor : Option (ReqInterceptor Req Err)
  resInterceptor : Option (ResInterceptor Res Err)

/-- `HTTPClientOption` (client.go line 22): a bare transport-configuration
function; its type implements neither interceptor interface. -/
def HTTPClientOption (HC Req Res Err : Type) (f : HC → HC) : GoOption HC Req Res Err :=
  ⟨some f, none, none⟩

/-- `RequestInterceptorOption` (interceptors.go line 36): wraps a
`RequestInterceptor`; implements `RequestInterceptor` only. -/
def RequestInterceptorOption (HC Req Res Err : Type) (i : ReqInterceptor Req Err) :
    GoOption HC Req Res Err :=
  ⟨none, some i, none⟩

/-- `ResponseInterceptorOption` (interceptors.go line 134): wraps a
`ResponseInterceptor`; implements `ResponseInterceptor` only. -/
def ResponseInterceptorOption (HC Req Res Err : Type) (i : ResInterceptor Res Err) :
    GoOption HC Req Res Err :=
  ⟨none, none, some i⟩

/-- A dual-role option: a single value whose dynamic type implements both
`RequestInterceptor` and `ResponseInterceptor` (such as `*forJSON`). -/
def DualInterceptorOption (HC Req Res Err : Type) (ri : ReqInterceptor Req Err)
    (si : ResInterceptor Res Err) : GoOption HC Req Res Err :=
  ⟨none, some ri, some si⟩

/-- `Client` (client.go lines 34-38). -/
structure Client (HC Req Res Err : Type) : Type where
  c : HC
  reqInterceptors : List (ReqInterceptor Req Err)
  resInterceptors : List (ResInterceptor Res Err)

/-- One step of the `switch o := opt.(type)` in `New` (client.go lines 47-58).
Go tries type-switch cases in source order and commits to the first match, so
an option implementing both interceptor interfaces is handled by the
`RequestInterceptor` case alone.  The unreachable `default: panic` branch
(an option with no recognised capability) is modelled as a no-op. -/
def newStep (acc : Client HC Req Res Err) (opt : GoOption HC Req Res Err) :
    Client HC Req Res Err :=
  match opt.httpClientOption with
  | some f => { acc with c := f acc.c }
  | none =>
    match opt.reqInterceptor with
    | some i => { acc with reqInterceptors := acc.reqInterceptors ++ [i] }
    | none =>
      match opt.resInterceptor with
      | some i => { acc with resInterceptors := acc.resInterceptors ++ [i] }
      | none => acc

/-- `New` (client.go lines 42-61); `dflt` models `new(http.Client)`. -/
def New (dflt : HC) (opts : List (GoOption HC Req Res Err)) : Client HC Req Res Err :=
  opts.foldl newStep { c := dflt, reqInterceptors := [], resInterceptors := [] }

/-- The loop over `c.reqInterceptors` in `Do` (client.go lines 90-95): thread
the request through each interceptor, aborting with the first error. -/
def applyReqInterceptors : List (ReqInterceptor Req Err) → Req → Except Err Req
  | [], req => Except.ok req
  | i :: rest, req =>
    match i req with
    | (_, some e) => Except.error e
    | (r, none) => applyReqInterceptors rest r

/-- The loop over call-level `opts` in `Do` (client.go lines 97-104): each
option is tested with `opt.(RequestInterceptor)` and applied when it has the
capability. -/
def applyOptsReq : List (GoOption HC Req Res Err) → Req → Except Err Req
  | [], req => Except.ok req
  | opt :: rest, req =>
    match opt.reqInterceptor with
    | some i =>
      match i req with
      | (_, some e) => Except.error e
      | (r, none) => applyOptsReq rest r
    | none => applyOptsReq rest req

/-- The loop over response interceptors (client.go lines 121-126): on error,
`Do` returns the response value produced by the failing interceptor. -/
def applyResInterceptors : List (ResInterceptor Res Err) → Res → Res × Option Err
  | [], res => (res, none)
  | i :: rest, res =>
    match i res with
    | (r, some e) => (r, some e)
    | (r, none) => applyResInterceptors rest r

/-- The loop over call-level `opts` in the response phase of `Do`
(client.go lines 112-119). -/
def applyOptsRes : List (GoOption HC Req Res Err) → Res → Res × Option Err
  | [], res => (res, none)
  | opt :: rest, res =>
    match opt.resInterceptor with
    | some i =>
      match i res with
      | (r, some e) => (r, some e)
      | (r, none) => applyOptsRes rest r
    | none => applyOptsRes rest res

/-- Result of `http.Client.Do`: a nil error always comes with a non-nil
response (`ok`); a non-nil error may carry a response or not (`fail`). -/
inductive TransportResult (Res Err : Type) : Type where
  | ok (res : Res)
  | fail (res : Option Res) (err : Err)

/-- The `(*http.Response, error)` pair returned by `Do`, instrumented with
`rawCloses`: the number of times `Do` itself closed the transport's raw
response body (via the single `defer res.Body.Close()`). -/
structure DoResult (Res Err : Type) : Type where
  res : Option Res
  err : Option Err
  rawCloses : Nat

/-- `Do` (client.go lines 87-129), with the transport `c.c.Do` supplied as the
oracle `tr`.  The `defer res.Body.Close()` on line 110 is registered only
after the transport returned a nil error, hence `rawCloses = 1` exactly on the
paths that pass that line and `0` on the request-phase-error and
transport-error paths. -/
def Client.Do (cl : Client HC Req Res Err) (tr : Req → TransportResult Res Err)
    (req : Req) (opts : List (GoOption HC Req Res Err)) : DoResult Res Err :=
  match applyReqInterceptors cl.reqInterceptors req with
  | Except.error e => ⟨none, some e, 0⟩
  | Except.ok req1 =>
    match applyOptsReq opts req1 with
    | Except.error e => ⟨none, some e, 0⟩
    | Except.ok req2 =>
      match tr req2 with
      | TransportResult.fail r e => ⟨r, some e, 0⟩
      | TransportResult.ok res =>
        match applyOptsRes opts res with
        | (res1, some e) => ⟨some res1, some e, 1⟩
        | (res1, none) =>
          match applyResInterceptors cl.resInterceptors res1 with
          | (res2, some e) => ⟨some res2, some e, 1⟩
          | (res2, none) => ⟨some res2, none, 1⟩

/-- `Execute` (client.go lines 76-83); `newReq` models
`http.NewRequestWithContext` applied to the ambient context with a nil body. -/
def Client.Execute (cl : Client HC Req Res Err) (newReq : String → String → Except Err Req)
    (tr : Req → TransportResult Res Err) (method url : String)
    (opts : List (GoOption HC Req Res Err)) : DoResult Res Err :=
  match newReq method url with
  | Except.error e => ⟨none, some e, 0⟩
  | Except.ok req => cl.Do tr req opts

/-- `Get` (client.go lines 65-67). -/
def Client.Get (cl : Client HC Req Res Err) (newReq : String → String → Except Err Req)
    (tr : Req → TransportResult Res Err) (url : String)
    (opts : List (GoOption HC Req Res Err)) : DoResult Res Err :=
  cl.Execute newReq tr "GET" url opts

/-- `Post` (client.go lines 72-74). -/
def Client.Post (cl : Client HC Req Res Err) (newReq : String → String → Except Err Req)
    (tr : Req → TransportResult Res Err) (url : String)
    (opts : List (GoOption HC Req Res Err)) : DoResult Res Err :=
  cl.Execute newReq tr "POST" url opts

/-! ## Concrete data model for the built-in interceptor library -/

/-- Errors produced by the package, kept structured so that statements can
inspect the data that Go's `fmt.Errorf` interpolates into the message. -/
inductive GoError : Type where
  | unexpectedStatusCode (code : Int)
  | expectedJSONResponse (contentType : String)
  | urlParseError (s : String)
  | marshalError (msg : String)
  | unmarshalError (msg : String)
  | closeError (msg : String)
  | newRequestError (msg : String)
  deriving DecidableEq

/-- The message each error renders to; `fmt.Errorf` verbs are interpolated
(`%d` of a Go int is its decimal rendering, matching `toString` on `Int`). -/
def GoError.message : GoError → String
  | .unexpectedStatusCode code => "unexpected status code: " ++ toString code
  | .expectedJSONResponse ct => "expected JSON response but got " ++ ct
  | .urlParseError s => "parse error: " ++ s
  | .marshalError m => m
  | .unmarshalError m => m
  | .closeError m => m
  | .newRequestError m => m

/-- A request or response body: the bytes it will yield to a full read, plus
the error its `Close` method returns (`none` models a nil error).  A
`bytes.Reader` wrapped by the package's `readCloser` has `closeErr = none`
(interceptors.go line 67). -/
structure Body : Type where
  bytes : List Nat
  closeErr : Option GoError
  deriving DecidableEq

/-- `http.Header.Set k v`: replace every value of `k` with the single value
`v`.  All header keys used in this development are already in Go's canonical
MIME form, so canonicalisation is the identity here. -/
def setHeader (hs : List (String × String)) (k v : String) : List (String × String) :=
  (k, v) :: hs.filter (fun p => ¬(p.1 = k))

/-- `http.Header.Add k v`: append a value for `k`. -/
def addHeader (hs : List (String × String)) (k v : String) : List (String × String) :=
  hs ++ [(k, v)]

/-- `http.Header.Get k`: first value of `k`, or `""` when absent. -/
def getHeader (hs : List (String × String)) (k : String) : String :=
  match hs.find? (fun p => p.1 = k) with
  | some p => p.2
  | none => ""

/-- The parts of `*http.Request` the interceptor library touches.  The URL
type `U` is a parameter because `net/url.URL` is external to the package. -/
structure Request (U : Type) : Type where
  url : U
  headers : List (String × String)
  body : Option Body
  contentLength : Int

/-- The parts of `*http.Response` the interceptor library touches. -/
structure Response : Type where
  statusCode : Int
  headers : List (String × String)
  body : Body

/-- The interceptor built by `WithRequestHeader` (interceptors.go lines
56-61): sets one header and never fails. -/
def withRequestHeaderInterceptor (header value : String) :
    ReqInterceptor (Request U) GoError :=
  fun r => ({ r with headers := setHeader r.headers header value }, none)

/-- `WithRequestHeader` wraps the interceptor in a `RequestInterceptorOption`. -/
def WithRequestHeader (HC : Type) (U : Type) (Res : Type) (header value : String) :
    GoOption HC (Request U) Res GoError :=
  RequestInterceptorOption HC (Request U) Res GoError
    (withRequestHeaderInterceptor header value)

/-- The interceptor returned by `withBody` (interceptors.go lines 70-89).
The Go function receives an `io.Reader`; here `newBody` is that reader
already in `Body` form — for a plain reader the package wraps it in
`readCloser`, whose `Close` is nil, so its `closeErr` is `none`.  It first
closes a prior non-nil body (failing with that close error and leaving the
request un-replaced), then installs the new body, sets `Content-Type` and the
declared length.  The second component counts `Close` calls made on the prior
body. -/
def withBody (newBody : Body) (contentType : String) (length : Int) :
    Request U → (Request U × Option GoError) × Nat :=
  fun req =>
    match req.body with
    | some b =>
      match b.closeErr with
      | some e => ((req, some e), 1)
      | none =>
        (({ req with
              body := some newBody
              headers := setHeader req.headers "Content-Type" contentType
              contentLength := length }, none), 1)
    | none =>
      (({ req with
            body := some newBody
            headers := setHeader req.headers "Content-Type" contentType
            contentLength := length }, none), 0)

/-- The interceptor built by `WithJSON` (interceptors.go lines 102-111):
marshal the value (failing with the marshal error and an untouched request),
then delegate to `withBody` with a freshly wrapped `bytes.Reader`, content
type `application/json` and `int64(len(b))`.  `marshal` models
`json.Marshal`. -/
def WithJSON (marshal : α → Except GoError (List Nat)) (value : α) :
    Request U → (Request U × Option GoError) × Nat :=
  fun r =>
    match marshal value with
    | Except.error e => ((r, some e), 0)
    | Except.ok b => withBody ⟨b, none⟩ "application/json" (Int.ofNat b.length) r

/-- The interceptor built by `ExpectedStatusCode` (interceptors.go lines
156-165): scan the expected codes in order, pass the response through
unchanged on the first match, and after an unsuccessful scan fail with
`fmt.Errorf("unexpected status code: %d", r.StatusCode)`. -/
def expectedStatusCodeCheck (codes : List Int) : ResInterceptor Response GoError :=
  fun r => loop codes r
where
  loop : List Int → Response → Response × Option GoError
    | [], r => (r, some (GoError.unexpectedStatusCode r.statusCode))
    | c :: rest, r => if r.statusCode = c then (r, none) else loop rest r

/-- `ExpectedStatusCode` wraps the check in a `ResponseInterceptorOption`. -/
def ExpectedStatusCode (HC Req : Type) (codes : List Int) :
    GoOption HC Req Response GoError :=
  ResponseInterceptorOption HC Req Response GoError (expectedStatusCodeCheck codes)

/-- `(*forJSON).InterceptRequest` (interceptors.go lines 181-184): add an
`Accept: application/json` header; never fails. -/
def forJSONInterceptRequest : ReqInterceptor (Request U) GoError :=
  fun r => ({ r with headers := addHeader r.headers "Accept" "application/json" }, none)

/-- `(*forJSON).InterceptResponse` (interceptors.go lines 186-198): require a
content type starting with `application/json`, read the whole body, and
unmarshal it into the bound value.  `unmarshal` models
`json.Unmarshal(d, jr.value)` (the result of mutating the bound value is the
returned error); reading the body is total here because a `Body` carries the
bytes a full read yields. -/
def forJSONInterceptResponse (unmarshal : List Nat → Option GoError) :
    ResInterceptor Response GoError :=
  fun r =>
    let ct := getHeader r.headers "Content-Type"
    if ct.startsWith "application/json" then (r, unmarshal r.body.bytes)
    else (r, some (GoError.expectedJSONResponse ct))

/-- `ForJSON` (interceptors.go lines 209-211): a `*forJSON` value, whose
dynamic type implements `RequestInterceptor`, `ResponseInterceptor`,
`ClientOption` and `RequestOption` all at once. -/
def ForJSON (HC U : Type) (unmarshal : List Nat → Option GoError) :
    GoOption HC (Request U) Response GoError :=
  ⟨none, some forJSONInterceptRequest, some (forJSONInterceptResponse unmarshal)⟩

/-- The interceptor built by `WithURLPrefix` (interceptors.go lines 219-231):
leave an absolute URL alone; otherwise parse `pfx + r.URL.String()`, failing
with the parse error (request unchanged) or installing the parsed URL.
`isAbs`, `render` and `parse` model `(*url.URL).IsAbs`, `(*url.URL).String`
and `url.Parse`, which are external to the package. -/
def urlPrefixInterceptor (isAbs : U → Bool) (render : U → String)
    (parse : String → Except GoError U) (pfx : String) :
    ReqInterceptor (Request U) GoError :=
  fun r =>
    if isAbs r.url then (r, none)
    else
      match parse (pfx ++ render r.url) with
      | Except.error e => (r, some e)
      | Except.ok u => ({ r with url := u }, none)

/-- `WithURLPrefix` wraps the interceptor in a `RequestInterceptorOption`. -/
def WithURLPrefixOption (HC : Type) (U : Type) (Res : Type) (isAbs : U → Bool)
    (render : U → String) (parse : String → Except GoError U) (pfx : String) :
    GoOption HC (Request U) Res GoError :=
  RequestInterceptorOption HC (Request U) Res GoError
    (urlPrefixInterceptor isAbs render parse pfx)

/-- A labelling interceptor used to observe invocation order in concrete
instances: it appends its label to the list flowing through the pipeline and
never fails.  It serves as a `ReqInterceptor (List String) Unit` and as a
`ResInterceptor (List String) Unit`. -/
def labelStep (s : String) : List String → List String × Option Unit :=
  fun t => (t ++ [s], none)

/-- A concrete URL instantiation (`U := String`) for closed examples: a URL
string is absolute when it carries an `http`/`https` scheme. -/
def strIsAbs (s : String) : Bool :=
  "http://".data.isPrefixOf s.data || "https://".data.isPrefixOf s.data

/-- A concrete always-successful parser for closed examples: `url.Parse`
succeeds on every well-formed URL string, returning it verbatim in the
`U := String` instantiation. -/
def strParse (s : String) : Except GoError String :=
  Except.ok s

/-! ## Spec-side pipeline and helper lemmas -/

/-- Modelled from the spec: the execution order of section 4.3 — all request
interceptors (client-level `R1..Rn` then call-level `C1..Cm`) as one
concatenated sequence, then the transport, then all response interceptors
(call-level `D1..Dk` then client-level `S1..Sp`) as one concatenated
sequence, each stage threading the value its predecessor produced and
aborting on the first error. -/
def doPipelineSpec (cl : Client HC Req Res Err) (tr : Req → TransportResult Res Err)
    (req : Req) (opts : List (GoOption HC Req Res Err)) : DoResult Res Err :=
  match applyReqInterceptors
      (cl.reqInterceptors ++ opts.filterMap GoOption.reqInterceptor) req with
  | Except.error e => ⟨none, some e, 0⟩
  | Except.ok req2 =>
    match tr req2 with
    | TransportResult.fail r e => ⟨r, some e, 0⟩
    | TransportResult.ok res =>
      match applyResInterceptors
          (opts.filterMap GoOption.resInterceptor ++ cl.resInterceptors) res with
      | (res2, some e) => ⟨some res2, some e, 1⟩
      | (res2, none) => ⟨some res2, none, 1⟩

theorem applyReqInterceptors_append (as bs : List (ReqInterceptor Req Err)) (req : Req) :
    applyReqInterceptors (as ++ bs) req =
      match applyReqInterceptors as req with
      | Except.error e => Except.error e
      | Except.ok r => applyReqInterceptors bs r := by
  induction as generalizing req with
  | nil => rfl
  | cons i rest ih =>
    rcases h : i req with ⟨r, e⟩
    cases e with
    | none =>
      simp only [List.cons_append, applyReqInterceptors, h]
      exact ih r
    | some e => simp only [List.cons_append, applyReqInterceptors, h]

theorem applyOptsReq_eq_filterMap (opts : List (GoOption HC Req Res Err)) (req : Req) :
    applyOptsReq opts req =
      applyReqInterceptors (opts.filterMap GoOption.reqInterceptor) req := by
  induction opts generalizing req with
  | nil => rfl
  | cons opt rest ih =>
    rcases h : opt.reqInterceptor with _ | i
    · simp only [applyOptsReq, h, List.filterMap_cons]
      exact ih req
    · rcases hi : i req with ⟨r, e⟩
      cases e with
      | none =>
        simp only [applyOptsReq, h, List.filterMap_cons, applyReqInterceptors, hi]
        exact ih r
      | some e =>
        simp only [applyOptsReq, h, List.filterMap_cons, applyReqInterceptors, hi]

theorem applyResInterceptors_append (as bs : List (ResInterceptor Res Err)) (res : Res) :
    applyResInterceptors (as ++ bs) res =
      match applyResInterceptors as res with
      | (r, some e) => (r, some e)
      | (r, none) => applyResInterceptors bs r := by
  induction as generalizing res with
  | nil => rfl
  | cons i rest ih =>
    rcases h : i res with ⟨r, e⟩
    cases e with
    | none =>
      simp only [List.cons_append, applyResInterceptors, h]
      exact ih r
    | some e => simp only [List.cons_append, applyResInterceptors, h]

theorem applyOptsRes_eq_filterMap (opts : List (GoOption HC Req Res Err)) (res : Res) :
    applyOptsRes opts res =
      applyResInterceptors (opts.filterMap GoOption.resInterceptor) res := by
  induction opts generalizing res with
  | nil => rfl
  | cons opt rest ih =>
    rcases h : opt.resInterceptor with _ | i
    · simp only [applyOptsRes, h, List.filterMap_cons]
      exact ih res
    · rcases hi : i res with ⟨r, e⟩
      cases e with
      | none =>
        simp only [applyOptsRes, h, List.filterMap_cons, applyResInterceptors, hi]
        exact ih r
      | some e =>
        simp only [applyOptsRes, h, List.filterMap_cons, applyResInterceptors, hi]

/-- Helper: `Do` agrees with the concatenated pipeline everywhere. -/
theorem do_pipeline_eq (cl : Client HC Req Res Err) (tr : Req → TransportResult Res Err)
    (req : Req) (opts : List (GoOption HC Req Res Err)) :
    cl.Do tr req opts = doPipelineSpec cl tr req opts := by
  unfold Client.Do doPipelineSpec
  simp only [applyReqInterceptors_append, applyResInterceptors_append,
    applyOptsReq_eq_filterMap, applyOptsRes_eq_filterMap]
  rcases applyReqInterceptors cl.reqInterceptors req with e | req1
  · rfl
  · dsimp only
    rcases applyReqInterceptors (opts.filterMap GoOption.reqInterceptor) req1 with e | req2
    · rfl
    · dsimp only
      rcases tr req2 with res | ⟨r, e⟩
      · dsimp only
        rcases applyResInterceptors (opts.filterMap GoOption.resInterceptor) res with ⟨res1, e⟩
        cases e with
        | none =>
          rcases applyResInterceptors cl.resInterceptors res1 with ⟨res2, e2⟩
          cases e2 <;> rfl
        | some e => rfl
      · rfl

/-! ## Claim theorems -/

/-- C1, counterexample: `ForJSON`'s dual-role option registered once at
client construction is NOT appended to the response-interceptor sequence:
Go's type switch in `New` commits to the first matching case
(`RequestInterceptor`), so the response-interceptor sequence stays empty
instead of holding the option exactly once. -/
theorem forJSON_registration_counterexample :
    ¬ ((New () [ForJSON Unit String (fun _ => none)]).resInterceptors.length = 1) := by
  have h : (New () [ForJSON Unit String (fun _ => none)]).resInterceptors = [] := rfl
  simp [h]

/-- C1 (amended): a dual-role option (one value implementing both
interception capabilities, as `ForJSON` returns) registered once at client
construction is appended exactly once to the client's request-interceptor
sequence and never to its response-interceptor sequence (the type switch in
`New` stops at the `RequestInterceptor` case); passed once as a call-level
option to `Do`, its request capability runs in the request phase and its
response capability runs in the response phase of that call (shown on a
labelling instance: the request capability's label lands before the
transport's, the response capability's after it). -/
theorem dual_option_registration (HC Req Res Err : Type) (dflt : HC)
    (ri : ReqInterceptor Req Err) (si : ResInterceptor Res Err) :
    (New dflt [DualInterceptorOption HC Req Res Err ri si]).reqInterceptors = [ri] ∧
    (New dflt [DualInterceptorOption HC Req Res Err ri si]).resInterceptors = [] ∧
    (⟨(), [], []⟩ : Client Unit (List String) (List String) Unit).Do
        (fun r => TransportResult.ok (r ++ ["transport"])) []
        [DualInterceptorOption Unit (List String) (List String) Unit
          (labelStep "request") (labelStep "response")]
      = ⟨some ["request", "transport", "response"], none, 1⟩ :=
  ⟨rfl, rfl, rfl⟩

/-- C2: `Do` invokes interceptors exactly in the order: client-level request
interceptors in registration order, then the request-capable call-level
options in the order passed, then the transport, then the response-capable
call-level options in the order passed, then the client-level response
interceptors in registration order — each receiving the value its
predecessor returned (this is `doPipelineSpec`, the sequential run over the
concatenated sequences).  A labelled instance with client-level `R1,R2`
(request) and `S1,S2` (response) and call-level `C1` (request) and `D1`
(response) exhibits the order `R1,R2,C1,T,D1,S1,S2` concretely. -/
theorem do_invocation_order (HC Req Res Err : Type) (cl : Client HC Req Res Err)
    (tr : Req → TransportResult Res Err) (req : Req)
    (opts : List (GoOption HC Req Res Err)) :
    cl.Do tr req opts = doPipelineSpec cl tr req opts ∧
    (⟨(), [labelStep "R1", labelStep "R2"], [labelStep "S1", labelStep "S2"]⟩ :
        Client Unit (List String) (List String) Unit).Do
        (fun r => TransportResult.ok (r ++ ["T"])) []
        [RequestInterceptorOption Unit (List String) (List String) Unit (labelStep "C1"),
         ResponseInterceptorOption Unit (List String) (List String) Unit (labelStep "D1")]
      = ⟨some ["R1", "R2", "C1", "T", "D1", "S1", "S2"], none, 1⟩ :=
  ⟨do_pipeline_eq cl tr req opts, rfl⟩

/-- Helper: inside the request phase, once an interceptor fails, the runner
returns that error whatever comes after it. -/
theorem applyReqInterceptors_error_at (pre post : List (ReqInterceptor Req Err))
    (bad : ReqInterceptor Req Err) (req r r2 : Req) (e : Err)
    (h1 : applyReqInterceptors pre req = Except.ok r) (h2 : bad r = (r2, some e)) :
    applyReqInterceptors (pre ++ bad :: post) req = Except.error e := by
  rw [applyReqInterceptors_append, h1]
  simp only [applyReqInterceptors, h2]

/-- Helper: inside the response phase, once an interceptor fails, the runner
returns that interceptor's response and error whatever comes after it. -/
theorem applyResInterceptors_error_at (pre post : List (ResInterceptor Res Err))
    (bad : ResInterceptor Res Err) (res r r2 : Res) (e : Err)
    (h1 : applyResInterceptors pre res = (r, none)) (h2 : bad r = (r2, some e)) :
    applyResInterceptors (pre ++ bad :: post) res = (r2, some e) := by
  rw [applyResInterceptors_append, h1]
  simp only [applyResInterceptors, h2]

/-- C3: the first interceptor error wins.  (a) A failing request interceptor
hides every interceptor after it in the request phase, whatever they are;
(b) when the combined request phase (client-level then call-level) fails with
`e`, `Do` returns `(nil, e)` for every transport — the transport is never
consulted and the body-close never runs; (c) a failing response interceptor
hides every response interceptor after it; (d) when the combined response
phase fails with `e` after a successful transport, the call returns exactly
`e`. -/
theorem interceptor_error_short_circuits (HC Req Res Err : Type) :
    (∀ (pre post : List (ReqInterceptor Req Err)) (bad : ReqInterceptor Req Err)
        (req r r2 : Req) (e : Err),
        applyReqInterceptors pre req = Except.ok r → bad r = (r2, some e) →
        applyReqInterceptors (pre ++ bad :: post) req = Except.error e) ∧
    (∀ (cl : Client HC Req Res Err) (opts : List (GoOption HC Req Res Err))
        (req : Req) (e : Err),
        applyReqInterceptors (cl.reqInterceptors ++ opts.filterMap GoOption.reqInterceptor) req
          = Except.error e →
        ∀ tr, cl.Do tr req opts = ⟨none, some e, 0⟩) ∧
    (∀ (pre post : List (ResInterceptor Res Err)) (bad : ResInterceptor Res Err)
        (res r r2 : Res) (e : Err),
        applyResInterceptors pre res = (r, none) → bad r = (r2, some e) →
        applyResInterceptors (pre ++ bad :: post) res = (r2, some e)) ∧
    (∀ (cl : Client HC Req Res Err) (opts : List (GoOption HC Req Res Err))
        (req r : Req) (tr : Req → TransportResult Res Err) (res res2 : Res) (e : Err),
        applyReqInterceptors (cl.reqInterceptors ++ opts.filterMap GoOption.reqInterceptor) req
          = Except.ok r →
        tr r = TransportResult.ok res →
        applyResInterceptors (opts.filterMap GoOption.resInterceptor ++ cl.resInterceptors) res
          = (res2, some e) →
        cl.Do tr req opts = ⟨some res2, some e, 1⟩) := by
  refine ⟨applyReqInterceptors_error_at, ?_, applyResInterceptors_error_at, ?_⟩
  · intro cl opts req e h tr
    rw [do_pipeline_eq]
    unfold doPipelineSpec
    rw [h]
  · intro cl opts req r tr res res2 e h1 h2 h3
    rw [do_pipeline_eq]
    unfold doPipelineSpec
    rw [h1]
    dsimp only
    rw [h2]
    dsimp only
    rw [h3]

/-- Witness for C3: concrete instances of all four conjuncts, on labelled
list pipelines with `Unit` errors. -/
theorem interceptor_error_short_circuits_witness :
    applyReqInterceptors
        ([labelStep "R1"] ++ (fun t => (t, some ())) :: [labelStep "R2"]) []
      = Except.error () ∧
    (⟨(), [fun t => (t, some ())], []⟩ : Client Unit (List String) (List String) Unit).Do
        (fun r => TransportResult.ok r) [] [] = ⟨none, some (), 0⟩ ∧
    applyResInterceptors
        ([labelStep "S1"] ++ (fun t => (t, some ())) :: [labelStep "S2"]) []
      = (["S1"], some ()) ∧
    (⟨(), [], [fun t => (t, some ())]⟩ : Client Unit (List String) (List String) Unit).Do
        (fun r => TransportResult.ok r) [] [] = ⟨some [], some (), 1⟩ :=
  ⟨(interceptor_error_short_circuits Unit (List String) (List String) Unit).1
      [labelStep "R1"] [labelStep "R2"] (fun t => (t, some ())) [] ["R1"] ["R1"] () rfl rfl,
   (interceptor_error_short_circuits Unit (List String) (List String) Unit).2.1
      ⟨(), [fun t => (t, some ())], []⟩ [] [] () rfl (fun r => TransportResult.ok r),
   (interceptor_error_short_circuits Unit (List String) (List String) Unit).2.2.1
      [labelStep "S1"] [labelStep "S2"] (fun t => (t, some ())) [] ["S1"] ["S1"] () rfl rfl,
   (interceptor_error_short_circuits Unit (List String) (List String) Unit).2.2.2
      ⟨(), [], [fun t => (t, some ())]⟩ [] [] [] (fun r => TransportResult.ok r) [] [] ()
      rfl rfl rfl⟩

/-- C4, counterexample: when the transport fails while still producing a
non-nil response, `Do` returns that response and error but performs no close
of the raw body — the `defer res.Body.Close()` sits after the
transport-error early return, so this exit path closes the body zero times,
not exactly once as claimed. -/
theorem transport_error_body_unclosed :
    (⟨(), [], []⟩ : Client Unit Nat Nat Nat).Do
        (fun _ => TransportResult.fail (some 5) 3) 0 [] = ⟨some 5, some 3, 0⟩ ∧
    ¬ ((⟨(), [], []⟩ : Client Unit Nat Nat Nat).Do
        (fun _ => TransportResult.fail (some 5) 3) 0 []).rawCloses = 1 := by
  constructor
  · rfl
  · intro h
    have h0 : ((⟨(), [], []⟩ : Client Unit Nat Nat Nat).Do
        (fun _ => TransportResult.fail (some 5) 3) 0 []).rawCloses = 0 := rfl
    rw [h0] at h
    exact absurd h (by decide)

/-- C4 (amended): `Do` itself releases the transport's raw response body
exactly once on precisely the exit paths on which the transport returned a
response with a nil error (successful completion and response-interceptor
error), and never more than once; on a request-interceptor error and on a
transport-level error — even one producing a non-nil response — `Do`
performs no close of its own (for the latter path the `net/http` contract
has the transport close the body before returning). -/
theorem do_rawCloses_characterization (HC Req Res Err : Type)
    (cl : Client HC Req Res Err) (tr : Req → TransportResult Res Err) (req : Req)
    (opts : List (GoOption HC Req Res Err)) :
    ((cl.Do tr req opts).rawCloses = 1 ↔
      ∃ r res,
        applyReqInterceptors (cl.reqInterceptors ++ opts.filterMap GoOption.reqInterceptor) req
          = Except.ok r ∧
        tr r = TransportResult.ok res) ∧
    (cl.Do tr req opts).rawCloses ≤ 1 := by
  rw [do_pipeline_eq]
  unfold doPipelineSpec
  rcases h1 : applyReqInterceptors
      (cl.reqInterceptors ++ opts.filterMap GoOption.reqInterceptor) req with e | r
  · simp
  · dsimp only
    rcases h2 : tr r with res | ⟨rr, e⟩
    · dsimp only
      rcases h3 : applyResInterceptors
          (opts.filterMap GoOption.resInterceptor ++ cl.resInterceptors) res with ⟨res2, e2⟩
      cases e2 with
      | none => simp [h2]
      | some e2 => simp [h2]
    · simp [h2]

/-- C9: a request-interceptor error always yields a nil response; a
transport failure passes the transport's (possibly non-nil) response through
with the error; a response-interceptor error makes `Do` return that error
together with exactly the response value the failing interceptor returned.
Hence a non-nil response can accompany a non-nil error only out of the
transport or the response phase. -/
theorem do_error_response_pairing (HC Req Res Err : Type) :
    (∀ (cl : Client HC Req Res Err) (opts : List (GoOption HC Req Res Err))
        (req : Req) (e : Err) (tr : Req → TransportResult Res Err),
        applyReqInterceptors (cl.reqInterceptors ++ opts.filterMap GoOption.reqInterceptor) req
          = Except.error e →
        cl.Do tr req opts = ⟨none, some e, 0⟩) ∧
    (∀ (cl : Client HC Req Res Err) (opts : List (GoOption HC Req Res Err))
        (req r : Req) (tr : Req → TransportResult Res Err) (res? : Option Res) (e : Err),
        applyReqInterceptors (cl.reqInterceptors ++ opts.filterMap GoOption.reqInterceptor) req
          = Except.ok r →
        tr r = TransportResult.fail res? e →
        cl.Do tr req opts = ⟨res?, some e, 0⟩) ∧
    (∀ (cl : Client HC Req Res Err) (opts : List (GoOption HC Req Res Err))
        (req r : Req) (tr : Req → TransportResult Res Err) (res : Res)
        (pre post : List (ResInterceptor Res Err)) (bad : ResInterceptor Res Err)
        (r1 r2 : Res) (e : Err),
        applyReqInterceptors (cl.reqInterceptors ++ opts.filterMap GoOption.reqInterceptor) req
          = Except.ok r →
        tr r = TransportResult.ok res →
        opts.filterMap GoOption.resInterceptor ++ cl.resInterceptors = pre ++ bad :: post →
        applyResInterceptors pre res = (r1, none) →
        bad r1 = (r2, some e) →
        cl.Do tr req opts = ⟨some r2, some e, 1⟩) := by
  refine ⟨?_, ?_, ?_⟩
  · intro cl opts req e tr h
    rw [do_pipeline_eq]
    unfold doPipelineSpec
    rw [h]
  · intro cl opts req r tr res? e h1 h2
    rw [do_pipeline_eq]
    unfold doPipelineSpec
    rw [h1]
    dsimp only
    rw [h2]
  · intro cl opts req r tr res pre post bad r1 r2 e h1 h2 hsplit h3 h4
    rw [do_pipeline_eq]
    unfold doPipelineSpec
    rw [h1]
    dsimp only
    rw [h2]
    dsimp only
    rw [hsplit, applyResInterceptors_error_at pre post bad res r1 r2 e h3 h4]

/-- Witness for C9: concrete instances of all three conjuncts. -/
theorem do_error_response_pairing_witness :
    (⟨(), [fun t => (t, some ())], []⟩ : Client Unit (List String) (List String) Unit).Do
        (fun r => TransportResult.ok r) [] [] = ⟨none, some (), 0⟩ ∧
    (⟨(), [], []⟩ : Client Unit (List String) (List String) Unit).Do
        (fun _ => TransportResult.fail (some ["partial"]) ()) [] []
      = ⟨some ["partial"], some (), 0⟩ ∧
    (⟨(), [], [labelStep "S1", fun t => (t ++ ["boom"], some ())]⟩ :
        Client Unit (List String) (List String) Unit).Do
        (fun r => TransportResult.ok r) [] [] = ⟨some ["S1", "boom"], some (), 1⟩ :=
  ⟨(do_error_response_pairing Unit (List String) (List String) Unit).1
      ⟨(), [fun t => (t, some ())], []⟩ [] [] () (fun r => TransportResult.ok r) rfl,
   (do_error_response_pairing Unit (List String) (List String) Unit).2.1
      ⟨(), [], []⟩ [] [] [] (fun _ => TransportResult.fail (some ["partial"]) ())
      (some ["partial"]) () rfl rfl,
   (do_error_response_pairing Unit (List String) (List String) Unit).2.2
      ⟨(), [], [labelStep "S1", fun t => (t ++ ["boom"], some ())]⟩ [] [] []
      (fun r => TransportResult.ok r) [] [labelStep "S1"] []
      (fun t => (t ++ ["boom"], some ())) ["S1"] ["S1", "boom"] ()
      rfl rfl rfl rfl rfl⟩

/-- Helper: the scan over expected codes succeeds exactly on membership. -/
theorem expectedStatusCode_loop_mem (codes : List Int) (r : Response)
    (h : r.statusCode ∈ codes) :
    expectedStatusCodeCheck.loop codes r = (r, none) := by
  induction codes with
  | nil => cases h
  | cons c rest ih =>
    unfold expectedStatusCodeCheck.loop
    rcases List.mem_cons.mp h with hc | hrest
    · rw [if_pos hc]
    · by_cases hc : r.statusCode = c
      · rw [if_pos hc]
      · rw [if_neg hc]
        exact ih hrest

/-- Helper: the scan over expected codes fails, naming the actual status
code, exactly on non-membership. -/
theorem expectedStatusCode_loop_not_mem (codes : List Int) (r : Response)
    (h : r.statusCode ∉ codes) :
    expectedStatusCodeCheck.loop codes r
      = (r, some (GoError.unexpectedStatusCode r.statusCode)) := by
  induction codes with
  | nil => rfl
  | cons c rest ih =>
    unfold expectedStatusCodeCheck.loop
    rw [if_neg (fun hc => h (List.mem_cons.mpr (Or.inl hc)))]
    exact ih (fun hr => h (List.mem_cons.mpr (Or.inr hr)))

/-- C5: the status-code validator returns the response unchanged with a nil
error when the status code is in the expected set, and otherwise returns the
response with a non-nil error whose message contains the actual status
code. -/
theorem expectedStatusCode_spec (codes : List Int) (r : Response) :
    (r.statusCode ∈ codes → expectedStatusCodeCheck codes r = (r, none)) ∧
    (r.statusCode ∉ codes →
      expectedStatusCodeCheck codes r
        = (r, some (GoError.unexpectedStatusCode r.statusCode)) ∧
      ∃ pre post,
        (GoError.unexpectedStatusCode r.statusCode).message
          = pre ++ toString r.statusCode ++ post) := by
  constructor
  · intro h
    exact expectedStatusCode_loop_mem codes r h
  · intro h
    refine ⟨expectedStatusCode_loop_not_mem codes r h,
      "unexpected status code: ", "", ?_⟩
    simp [GoError.message]

/-- Witness for C5: configured with `{200}`, the validator passes a 200
response unchanged and fails a 404 response with an error naming 404. -/
theorem expectedStatusCode_spec_witness :
    expectedStatusCodeCheck [200] ⟨200, [], ⟨[], none⟩⟩ = (⟨200, [], ⟨[], none⟩⟩, none) ∧
    expectedStatusCodeCheck [200] ⟨404, [], ⟨[], none⟩⟩
      = (⟨404, [], ⟨[], none⟩⟩, some (GoError.unexpectedStatusCode 404)) ∧
    ∃ pre post, (GoError.unexpectedStatusCode 404).message = pre ++ toString (404 : Int) ++ post :=
  ⟨(expectedStatusCode_spec [200] ⟨200, [], ⟨[], none⟩⟩).1 (by simp),
   ((expectedStatusCode_spec [200] ⟨404, [], ⟨[], none⟩⟩).2 (by simp)).1,
   ((expectedStatusCode_spec [200] ⟨404, [], ⟨[], none⟩⟩).2 (by simp)).2⟩

/-- Helper: a response-interceptor sequence ending in the empty-set
status-code validator always ends the phase with a non-nil error. -/
theorem applyResInterceptors_ends_err (as : List (ResInterceptor Response GoError))
    (res : Response) :
    ((applyResInterceptors (as ++ [expectedStatusCodeCheck []]) res).2).isSome = true := by
  rw [applyResInterceptors_append]
  rcases h : applyResInterceptors as res with ⟨r, e⟩
  cases e with
  | none => rfl
  | some e => rfl

/-- C10: `ExpectedStatusCode` applied to zero codes builds an interceptor
that rejects every response, naming that response's status code; a client
whose response-interceptor sequence ends with it can never return a nil
error (no call completes successfully once the transport has returned,
whatever the transport, options or other interceptors do, since any earlier
error also aborts the call). -/
theorem expectedStatusCode_empty_rejects (HC Req : Type) :
    (∀ r : Response,
      expectedStatusCodeCheck [] r
        = (r, some (GoError.unexpectedStatusCode r.statusCode))) ∧
    (∀ (hc : HC) (ris : List (ReqInterceptor Req GoError))
        (pre : List (ResInterceptor Response GoError))
        (tr : Req → TransportResult Response GoError) (req : Req)
        (opts : List (GoOption HC Req Response GoError)),
        ((⟨hc, ris, pre ++ [expectedStatusCodeCheck []]⟩ :
            Client HC Req Response GoError).Do tr req opts).err.isSome = true) := by
  constructor
  · intro r
    rfl
  · intro hc ris pre tr req opts
    rw [do_pipeline_eq]
    unfold doPipelineSpec
    rcases h1 : applyReqInterceptors
        ((⟨hc, ris, pre ++ [expectedStatusCodeCheck []]⟩ :
          Client HC Req Response GoError).reqInterceptors
          ++ opts.filterMap GoOption.reqInterceptor) req with e | r
    · rfl
    · dsimp only
      rcases h2 : tr r with res | ⟨rr, e⟩
      · dsimp only
        have hend := applyResInterceptors_ends_err
          (opts.filterMap GoOption.resInterceptor ++ pre) res
        rw [List.append_assoc] at hend
        rcases h3 : applyResInterceptors
            (opts.filterMap GoOption.resInterceptor
              ++ (pre ++ [expectedStatusCodeCheck []])) res with ⟨res2, e2⟩
        rw [h3] at hend
        cases e2 with
        | none => cases hend
        | some e2 => rfl
      · rfl

/-- C6: the URL-prefix interceptor leaves a request with an absolute URL
unchanged; on a relative URL it sets the request URL to the result of
parsing `pfx ++ render(url)`, and it fails with the parse error (request
unchanged) when that combined string does not parse. -/
theorem urlPrefix_spec (U : Type) (isAbs : U → Bool) (render : U → String)
    (parse : String → Except GoError U) (pfx : String) (r : Request U) :
    (isAbs r.url = true → urlPrefixInterceptor isAbs render parse pfx r = (r, none)) ∧
    (∀ u, isAbs r.url = false → parse (pfx ++ render r.url) = Except.ok u →
      urlPrefixInterceptor isAbs render parse pfx r = ({ r with url := u }, none)) ∧
    (∀ e, isAbs r.url = false → parse (pfx ++ render r.url) = Except.error e →
      urlPrefixInterceptor isAbs render parse pfx r = (r, some e)) := by
  refine ⟨?_, ?_, ?_⟩
  · intro h
    unfold urlPrefixInterceptor
    rw [if_pos h]
  · intro u h hp
    unfold urlPrefixInterceptor
    rw [if_neg (by simp [h]), hp]
  · intro e h hp
    unfold urlPrefixInterceptor
    rw [if_neg (by simp [h]), hp]

/-- Witness for C6: prefix `https://host` and relative path `/a/b` yield
`https://host/a/b`; the already-absolute `https://other/x` is untouched; a
failing parse surfaces the parse error with the request unchanged. -/
theorem urlPrefix_spec_witness :
    urlPrefixInterceptor strIsAbs id strParse "https://host" ⟨"/a/b", [], none, 0⟩
      = (⟨"https://host/a/b", [], none, 0⟩, none) ∧
    urlPrefixInterceptor strIsAbs id strParse "https://host" ⟨"https://other/x", [], none, 0⟩
      = (⟨"https://other/x", [], none, 0⟩, none) ∧
    urlPrefixInterceptor strIsAbs id (fun s => Except.error (GoError.urlParseError s))
        "https://host" ⟨"/a/b", [], none, 0⟩
      = (⟨"/a/b", [], none, 0⟩, some (GoError.urlParseError "https://host/a/b")) :=
  ⟨(urlPrefix_spec String strIsAbs id strParse "https://host" ⟨"/a/b", [], none, 0⟩).2.1
      "https://host/a/b" (by decide) rfl,
   (urlPrefix_spec String strIsAbs id strParse "https://host"
      ⟨"https://other/x", [], none, 0⟩).1 (by decide),
   (urlPrefix_spec String strIsAbs id (fun s => Except.error (GoError.urlParseError s))
      "https://host" ⟨"/a/b", [], none, 0⟩).2.2
      (GoError.urlParseError "https://host/a/b") (by decide) rfl⟩

/-- C7: the JSON-body interceptor fails with the marshal error, leaving the
request un-replaced, when marshaling fails; otherwise it first closes any
prior non-nil body (failing with that close error if the close fails) and
sets the body to exactly the marshaled bytes, the `Content-Type` header to
`application/json`, and the declared content length to the exact byte count;
a `Get` on the resulting headers observes the header value. -/
theorem withJSON_spec (U α : Type) (marshal : α → Except GoError (List Nat)) (value : α)
    (r : Request U) :
    (∀ e, marshal value = Except.error e → WithJSON marshal value r = ((r, some e), 0)) ∧
    (∀ b old e, marshal value = Except.ok b → r.body = some old → old.closeErr = some e →
      WithJSON marshal value r = ((r, some e), 1)) ∧
    (∀ b, marshal value = Except.ok b → r.body = none →
      WithJSON marshal value r
        = (({ r with
                body := some ⟨b, none⟩
                headers := setHeader r.headers "Content-Type" "application/json"
                contentLength := Int.ofNat b.length }, none), 0)) ∧
    (∀ b old, marshal value = Except.ok b → r.body = some old → old.closeErr = none →
      WithJSON marshal value r
        = (({ r with
                body := some ⟨b, none⟩
                headers := setHeader r.headers "Content-Type" "application/json"
                contentLength := Int.ofNat b.length }, none), 1)) ∧
    (∀ (hs : List (String × String)) (v : String),
      getHeader (setHeader hs "Content-Type" v) "Content-Type" = v) := by
  refine ⟨?_, ?_, ?_, ?_, ?_⟩
  · intro e h
    unfold WithJSON
    rw [h]
  · intro b old e h hb hc
    unfold WithJSON
    rw [h]
    unfold withBody
    rw [hb]
    dsimp only
    rw [hc]
  · intro b h hb
    unfold WithJSON
    rw [h]
    unfold withBody
    rw [hb]
  · intro b old h hb hc
    unfold WithJSON
    rw [h]
    unfold withBody
    rw [hb]
    dsimp only
    rw [hc]
  · intro hs v
    simp [getHeader, setHeader]

/-- Witness for C7: serializing the string `"hello"` (JSON bytes
`"hello"` = 7 bytes) onto a body-less request installs exactly those bytes
with `Content-Type: application/json` and length 7; a failing marshal and a
failing prior-body close each surface their error with the request
un-replaced; a prior closable body is closed exactly once. -/
theorem withJSON_spec_witness :
    WithJSON (fun _ : String => Except.ok [34, 104, 101, 108, 108, 111, 34]) "hello"
        (⟨"/x", [], none, 0⟩ : Request String)
      = ((⟨"/x", [("Content-Type", "application/json")],
            some ⟨[34, 104, 101, 108, 108, 111, 34], none⟩, 7⟩, none), 0) ∧
    WithJSON (fun _ : String => Except.error (GoError.marshalError "bad value")) "hello"
        (⟨"/x", [], none, 0⟩ : Request String)
      = ((⟨"/x", [], none, 0⟩, some (GoError.marshalError "bad value")), 0) ∧
    WithJSON (fun _ : String => Except.ok [34, 34]) "hello"
        (⟨"/x", [], some ⟨[], some (GoError.closeError "close failed")⟩, 0⟩ : Request String)
      = ((⟨"/x", [], some ⟨[], some (GoError.closeError "close failed")⟩, 0⟩,
          some (GoError.closeError "close failed")), 1) ∧
    WithJSON (fun _ : String => Except.ok [34, 34]) "hello"
        (⟨"/x", [], some ⟨[9], none⟩, 0⟩ : Request String)
      = ((⟨"/x", [("Content-Type", "application/json")], some ⟨[34, 34], none⟩, 2⟩, none), 1) ∧
    getHeader (setHeader [] "Content-Type" "application/json") "Content-Type"
      = "application/json" :=
  ⟨(withJSON_spec String String (fun _ => Except.ok [34, 104, 101, 108, 108, 111, 34])
      "hello" ⟨"/x", [], none, 0⟩).2.2.1 [34, 104, 101, 108, 108, 111, 34] rfl rfl,
   (withJSON_spec String String (fun _ => Except.error (GoError.marshalError "bad value"))
      "hello" ⟨"/x", [], none, 0⟩).1 (GoError.marshalError "bad value") rfl,
   (withJSON_spec String String (fun _ => Except.ok [34, 34]) "hello"
      ⟨"/x", [], some ⟨[], some (GoError.closeError "close failed")⟩, 0⟩).2.1
      [34, 34] ⟨[], some (GoError.closeError "close failed")⟩
      (GoError.closeError "close failed") rfl rfl rfl,
   (withJSON_spec String String (fun _ => Except.ok [34, 34]) "hello"
      ⟨"/x", [], some ⟨[9], none⟩, 0⟩).2.2.2.1 [34, 34] ⟨[9], none⟩ rfl rfl rfl,
   (withJSON_spec String String (fun _ => Except.ok []) "hello"
      ⟨"/x", [], none, 0⟩).2.2.2.2 [] "application/json"⟩

/-- C8: `Execute` returns `(nil, error)` as soon as request construction
fails — uniformly in the client's interceptors, the transport and the
options, so no interceptor runs and the transport is never invoked (and no
body close happens) — and delegates to `Do` exactly when construction
succeeds. -/
theorem execute_construction_error (HC Req Res Err : Type) :
    (∀ (cl : Client HC Req Res Err) (newReq : String → String → Except Err Req)
        (tr : Req → TransportResult Res Err) (method url : String)
        (opts : List (GoOption HC Req Res Err)) (e : Err),
        newReq method url = Except.error e →
        cl.Execute newReq tr method url opts = ⟨none, some e, 0⟩) ∧
    (∀ (cl : Client HC Req Res Err) (newReq : String → String → Except Err Req)
        (tr : Req → TransportResult Res Err) (method url : String)
        (opts : List (GoOption HC Req Res Err)) (req : Req),
        newReq method url = Except.ok req →
        cl.Execute newReq tr method url opts = cl.Do tr req opts) := by
  constructor
  · intro cl newReq tr method url opts e h
    unfold Client.Execute
    rw [h]
  · intro cl newReq tr method url opts req h
    unfold Client.Execute
    rw [h]

/-- Witness for C8: a failing constructor yields the construction error even
on a client with interceptors and an always-successful transport; a
succeeding constructor hands the built request to `Do`. -/
theorem execute_construction_error_witness :
    (⟨(), [labelStep "R1"], [labelStep "S1"]⟩ :
        Client Unit (List String) (List String) Unit).Execute
        (fun _ _ => Except.error ()) (fun r => TransportResult.ok r) "GET" "://bad" []
      = ⟨none, some (), 0⟩ ∧
    (⟨(), [labelStep "R1"], [labelStep "S1"]⟩ :
        Client Unit (List String) (List String) Unit).Execute
        (fun _ u => Except.ok [u]) (fun r => TransportResult.ok r) "GET" "/x" []
      = (⟨(), [labelStep "R1"], [labelStep "S1"]⟩ :
        Client Unit (List String) (List String) Unit).Do
        (fun r => TransportResult.ok r) ["/x"] [] :=
  ⟨(execute_construction_error Unit (List String) (List String) Unit).1
      ⟨(), [labelStep "R1"], [labelStep "S1"]⟩ (fun _ _ => Except.error ())
      (fun r => TransportResult.ok r) "GET" "://bad" [] () rfl,
   (execute_construction_error Unit (List String) (List String) Unit).2
      ⟨(), [labelStep "R1"], [labelStep "S1"]⟩ (fun _ u => Except.ok [u])
      (fun r => TransportResult.ok r) "GET" "/x" [] ["/x"] rfl⟩

end Httpclient
